import Mathlib

set_option linter.unusedVariables false
set_option maxRecDepth 10000

/-!
Shallow embedding of the WebCall signaling server core (the WebSocket
signaling handler of the repository: `serve`, `receiveProcess`, `Write`,
`peerConHasEnded`, `Close`, and the waiting-caller pruning), together with
theorems checking the natural-language specification against it.

Go strings are embedded as `List Char` (`Str`); Go `int`/`int64` as `Int`;
the two kv-store lists for this callee (`waitingCallers[calleeID]`,
`missedCalls[calleeID]`), the `userData2` record and the stored caller IP
are carried in an explicit `World` state.  Socket writes and closes are
recorded as observable actions.  Methods of the `Hub` type whose bodies are
not part of the sources here (`setDeadline`, `processTimeValues`,
`doBroadcast`, `doUnregister`, `addMissedCall`, `missedCall`,
`StoreCallerIpInHubMap`, `SetCalleeHiddenState`, `waitingCallerToCallee`)
are modelled from the spec, each marked in its doc comment.
-/

/-- Go strings (byte slices, here: character lists). -/
abbrev Str := List Char

/-- Conversion helper for string literals. -/
def str (s : String) : Str := s.toList

/-- Embedding of `strings.Split(l, <single char sep>)` from the Go standard
library: splits `l` at every occurrence of `sep`; always returns at least
one (possibly empty) part. -/
def splitOnChar (sep : Char) : Str → List Str
  | [] => [[]]
  | c :: rest =>
    if c = sep then [] :: splitOnChar sep rest
    else
      match splitOnChar sep rest with
      | [] => [[c]]
      | t :: ts => (c :: t) :: ts

/-- Embedding of `strings.TrimSpace`. -/
def trimStr (l : Str) : Str :=
  ((l.dropWhile Char.isWhitespace).reverse.dropWhile Char.isWhitespace).reverse

/-- Embedding of Go lexicographic `<` on strings. -/
def strLt : Str → Str → Bool
  | [], [] => false
  | [], _ :: _ => true
  | _ :: _, [] => false
  | a :: as, b :: bs => if a < b then true else if b < a then false else strLt as bs

/-- Embedding of `x &^ mask` / `x &= ^mask` (clear the bits of `mask`):
on non-negative integers `n - (n &&& mask)` clears exactly the bits of
`mask` that are set in `n`. -/
def clearBitsGo (n mask : Nat) : Nat := n - (n &&& mask)

/-- `type CallerInfo struct` (main.go), with the message-text field that the
`CallerInfo{...}` literal in `peerConHasEnded` fills as its fifth field. -/
structure CallerInfo where
  AddrPort : Str
  CallerName : Str
  CallTime : Int
  CallerID : Str
  MsgText : Str
deriving Repr, DecidableEq

/-- The fields of the `DbUser` record (bucket `userData2`) that the
signaling core reads and writes: the `Int2` bit field (bit 0 = hidden,
bit 2 = dial sounds muted) and the missed-call opt-in. -/
structure DbUser where
  Int2 : Nat
  StoreMissedCalls : Bool
deriving Repr, DecidableEq

/-- WebSocket frame kinds written by the embedded code. -/
inductive WsFrame where
  | text (b : Str)
  | closeFrame
  | ping
  | pong
deriving Repr, DecidableEq

/-- `ErrWriteNotConnected = errors.New("Write not connected")`. -/
inductive WsError where
  | writeNotConnected
deriving Repr, DecidableEq

/-- `type WsClient struct`: one signaling endpoint.  The `atombool` flags
are plain `Bool`s here; the socket handle, counters and log-only fields are
not carried. -/
structure WsClient where
  isOnline : Bool
  isConnectedToPeer : Bool
  isMediaConnectedToPeer : Bool
  pickupSent : Bool
  calleeInitReceived : Bool
  callerOfferForwarded : Bool
  isCallee : Bool
  calleeID : Str
  clientVersion : Str
  callerID : Str
  callerName : Str
  callerTextMsg : Str
  RemoteAddr : Str
  RemoteAddrNoPort : Str
  userAgent : Str
  clearOnCloseDone : Bool
deriving Repr, DecidableEq

/-- `func (c *WsClient) Write(b []byte) error` (source): returns
`ErrWriteNotConnected` when `isOnline` is false, otherwise writes one TEXT
frame on the socket and returns no error.  The result pairs the returned
error with the frames emitted on the socket. -/
def WsClient.Write (c : WsClient) (b : Str) : Option WsError × List WsFrame :=
  if !c.isOnline then (some WsError.writeNotConnected, [])
  else (none, [WsFrame.text b])

/-- The `Hub` struct fields used by the embedded signaling core.  The field
names follow their uses in the source (`hub.CalleeClient`,
`hub.CallerClient`, `hub.IsCalleeHidden`, `hub.lastCallStartTime`,
`hub.CallDurationSecs`, ...); `deadline` holds the seconds value last
passed to `setDeadline` (0 = disarmed), modelling the TimeoutController. -/
structure Hub where
  CalleeClient : Option WsClient
  CallerClient : Option WsClient
  IsCalleeHidden : Bool
  IsUnHiddenForCallerAddr : Str
  ServiceStartTime : Int
  ConnectedToPeerSecs : Int
  CallDurationSecs : Int
  lastCallStartTime : Int
  maxRingSecs : Int
  maxTalkSecsIfNoP2p : Int
  LocalP2p : Bool
  RemoteP2p : Bool
  CalleeLogin : Bool
  registrationStartTime : Int
  deadline : Int
deriving Repr, DecidableEq

/-- Modelled from the spec: `setDeadline(secs, cause)` arms (`secs > 0`) or
disarms (`secs == 0`) the hub's single deadline timer. -/
def Hub.setDeadline (h : Hub) (secs : Int) : Hub := { h with deadline := secs }

/-- Modelled from the spec: `processTimeValues` computes the duration of the
current call (`now - lastCallStartTime`), stores it in `CallDurationSecs`
and accumulates it into the lifetime `ConnectedToPeerSecs` (the today
counters and the user-record persistence are outside this model).  The
caller zeroes `lastCallStartTime` afterwards, as in the source. -/
def Hub.processTimeValues (h : Hub) (now : Int) : Hub :=
  { h with CallDurationSecs := now - h.lastCallStartTime,
           ConnectedToPeerSecs := h.ConnectedToPeerSecs + (now - h.lastCallStartTime) }

/-- The two signaling roles a `WsClient` can be bound to in a hub. -/
inductive Role where
  | callee
  | caller
deriving Repr, DecidableEq

/-- Observable side effects of the handlers: socket writes, socket closes,
the waiting/missed list push at callee init, the channel release for
`pickupWaitingCaller` and the `missedCalls|<json>` push. -/
inductive SrvAction where
  | write (target : Role) (msg : Str)
  | closeConn (target : Role) (reason : Str)
  | sendLists (waiting missed : List CallerInfo)
  | chanRelease (addrPort : Str)
  | missedCallsPush (l : List CallerInfo)
deriving Repr, DecidableEq

/-- The configuration globals read by the embedded handlers
(`calleeClientVersion`, `clientUpdateBelowVersion`,
`disconCalleeOnPeerConnected`, `disconCallerOnPeerConnected`). -/
structure Config where
  calleeClientVersion : Str
  clientUpdateBelowVersion : Str
  disconCalleeOnPeerConnected : Bool
  disconCallerOnPeerConnected : Bool
deriving Repr, DecidableEq

/-- The state the handlers read and write: the hub (which owns the two
endpoint slots), the kv-store lists for this callee, the `userData2`
record, the stored caller IP (`StoreCallerIpInHubMap`), the mirrored hidden
state (`SetCalleeHiddenState`), the current time, the emitted actions, and
a flag recording that a Go runtime panic (index out of range) occurred. -/
structure World where
  hub : Hub
  kvWaiting : List CallerInfo
  kvMissed : List CallerInfo
  dbUser : Option DbUser
  callerIpInHubMap : Str
  hiddenMirror : Bool
  now : Int
  actions : List SrvAction
  panicked : Bool
deriving Repr, DecidableEq

/-- The endpoint currently bound to a role. -/
def World.client (w : World) (r : Role) : Option WsClient :=
  match r with
  | Role.callee => w.hub.CalleeClient
  | Role.caller => w.hub.CallerClient

/-- Apply an update to the endpooint bound to a role (mirrors a mutation of
the Go client object referenced both by the local variable and the hub
slot). -/
def World.updateClient (w : World) (r : Role) (f : WsClient → WsClient) : World :=
  match r with
  | Role.callee => { w with hub := { w.hub with CalleeClient := w.hub.CalleeClient.map f } }
  | Role.caller => { w with hub := { w.hub with CallerClient := w.hub.CallerClient.map f } }

/-- A `Write` on the endpoint of role `r`: per `WsClient.Write` it fails
(returns `false`, no frame emitted) when the target is offline, and
is a no-op when the call site guarded against a missing endpoint. -/
def writeTo (w : World) (r : Role) (msg : Str) : World × Bool :=
  match w.client r with
  | none => (w, false)
  | some cl =>
    if cl.isOnline then ({ w with actions := w.actions ++ [SrvAction.write r msg] }, true)
    else (w, false)

/-- `func (c *WsClient) Close(reason string)`: writes a close frame and
closes the socket when the endpoint is still online. -/
def closeTo (w : World) (r : Role) (reason : Str) : World :=
  match w.client r with
  | none => w
  | some cl =>
    if cl.isOnline then { w with actions := w.actions ++ [SrvAction.closeConn r reason] }
    else w

/-- Modelled from the spec: `Hub.doBroadcast` delivers a message to both
endpoints. -/
def doBroadcast (w : World) (msg : Str) : World :=
  let w1 := (writeTo w Role.callee msg).1
  (writeTo w1 Role.caller msg).1

/-- Modelled from the spec: `addMissedCall(calleeID, info, cause)` appends
one `CallerInfo` record to `missedCalls[calleeID]` and persists the list. -/
def addMissedCall (missed : List CallerInfo) (info : CallerInfo) : List CallerInfo :=
  missed ++ [info]

/-- Modelled from the spec: `missedCall(payload, addr, ...)` (the handler of
`missedcall|<text>`, body not in the sources here) records a missed call
directly. -/
def missedCallDirect (missed : List CallerInfo) (payload addr : Str) (now : Int) :
    List CallerInfo :=
  missed ++ [⟨addr, [], now, [], payload⟩]

/-- One pass of the Go loop
`for idx := range waitingCallerSlice { if idx >= len(...) { break } ... }`
in the callee `init` handler: the iteration count (`fuel`) is the length of
the slice at loop entry, the slice shrinks in place when an entry is
outdated, and `none` signals an out-of-range slice access (a Go panic). -/
def pruneLoopGo (now : Int) : Nat → Nat → List CallerInfo → Nat →
    Option (List CallerInfo × Nat)
  | 0, _, s, cnt => some (s, cnt)
  | Nat.succ fuel, idx, s, cnt =>
    if idx ≥ s.length then some (s, cnt)
    else
      match s.get? idx with
      | none => none
      | some e =>
        if now - e.CallTime > 10 * 60 then
          pruneLoopGo now fuel (idx + 1) (s.take idx ++ s.drop (idx + 1)) (cnt + 1)
        else
          pruneLoopGo now fuel (idx + 1) s cnt

/-- The waiting-caller pruning of the callee `init` handler: remove entries
older than 10 minutes, returning the kept slice and `countOutdated`. -/
def pruneWaitingCallers (now : Int) (s : List CallerInfo) :
    Option (List CallerInfo × Nat) :=
  pruneLoopGo now s.length 0 s 0

/-- FormatInt / toString for ids built from `AddrPort + "_" + CallTime`. -/
def intToStr (i : Int) : Str := (toString i).toList

/-- The update-nag status text sent to old clients at `init`. -/
def updateStatusMsg : Str :=
  str ("This version of WebCall for Android has a technical problem. " ++
       "Support will be phased out soon. " ++
       "Please upgrade to <a href=\"https://timur.mobi/webcall/update/\">v1.0 or newer.</a>")

/-- The NO PEERCON status text of the 11 s watchdog. -/
def noPeerConMsg : Str :=
  str ("Unable to establish a direct P2P connection. " ++
       "This is likely a WebRTC related issue with your browser/WebView, " ++
       "or the browser/WebView on the other side. " ++
       "It could also be a firewall issue. " ++
       "On Android, run <a href=\"https://timur.mobi/webcall/android/#webview\">WebRTC-Check</a> " ++
       "to test your System WebView.")

/-- The `cmd=="init"` block of `receiveProcess`: callee-only, first-init-only;
resets the caller slot and per-session flags, sends `sessionId|`, then (for
non-bot callees on an accepted client version) loads the waiting-callers
list, prunes entries older than 10 minutes (persisting the pruned list only
when something was removed), loads the missed calls and pushes both lists
to the callee when non-empty. -/
def handleInit (cfg : Config) (w : World) (r : Role) (c : WsClient) : World :=
  if !c.isCallee then
    (writeTo w r (str "cancel|busy")).1
  else if c.calleeInitReceived then w
  else
    let w1 := { w with hub := { w.hub with CallerClient := none } }
    let w2 := w1.updateClient r (fun cl =>
      { cl with
          calleeInitReceived := true,
          pickupSent := false,
          clearOnCloseDone := false,
          callerTextMsg := [] })
    let w3 := { w2 with hub := { w2.hub with CalleeLogin := true } }
    let pr := writeTo w3 r (str "sessionId|" ++ cfg.calleeClientVersion)
    if !pr.2 then pr.1
    else
      if !(List.isPrefixOf (str "answie") c.calleeID) &&
         !(List.isPrefixOf (str "talkback") c.calleeID) then
        if cfg.clientUpdateBelowVersion ≠ [] &&
           strLt c.clientVersion cfg.clientUpdateBelowVersion then
          (writeTo pr.1 r (str "status|" ++ updateStatusMsg)).1
        else
          match pruneWaitingCallers pr.1.now pr.1.kvWaiting with
          | none => { pr.1 with panicked := true }
          | some (pruned, countOutdated) =>
            let w5 := if countOutdated > 0 then { pr.1 with kvWaiting := pruned } else pr.1
            if pruned.length > 0 || w5.kvMissed.length > 0 then
              { w5 with actions := w5.actions ++ [SrvAction.sendLists pruned w5.kvMissed] }
            else w5
      else pr.1

/-- The `cmd=="msg"` block: stores a sanitized single-line copy of the
payload as `callerTextMsg` on the callee endpoint. -/
def handleMsg (w : World) (c : WsClient) (payload : Str) : World :=
  let cleanMsg := trimStr (payload.map (fun ch =>
    if ch = Char.ofNat 10 then ' ' else if ch = Char.ofNat 13 then ' ' else ch))
  match w.hub.CalleeClient with
  | none => w
  | some _ => w.updateClient Role.callee (fun cl => { cl with callerTextMsg := cleanMsg })

/-- The `cmd=="missedcall"` block: records a missed call directly. -/
def handleMissedcallCmd (w : World) (c : WsClient) (payload : Str) : World :=
  { w with kvMissed := missedCallDirect w.kvMissed payload c.RemoteAddr w.now }

/-- The `cmd=="callerOffer"` block: forwards the first offer verbatim to the
callee, latches `callerOfferForwarded`, sends `callerInfo|` when the caller
has an id or name, swaps user agents, arms the ring deadline and stores the
caller IP. -/
def handleCallerOffer (w : World) (r : Role) (c : WsClient) (message : Str) : World :=
  if c.callerOfferForwarded then w
  else
    match w.hub.CalleeClient with
    | none => w
    | some calleeCl =>
      match w.hub.CallerClient with
      | none => w
      | some callerCl =>
        let pr1 := writeTo w Role.callee message
        if !pr1.2 then pr1.1
        else
          let w2 := pr1.1.updateClient r (fun cl => { cl with callerOfferForwarded := true })
          let pr3 : World × Bool :=
            if callerCl.callerID ≠ [] || callerCl.callerName ≠ [] then
              writeTo w2 Role.callee
                (str "callerInfo|" ++ callerCl.callerID ++ str ":" ++ callerCl.callerName)
            else (w2, true)
          if !pr3.2 then pr3.1
          else
            let pr4 := writeTo pr3.1 Role.caller (str "ua|" ++ calleeCl.userAgent)
            if !pr4.2 then pr4.1
            else
              let pr5 := writeTo pr4.1 Role.callee (str "ua|" ++ callerCl.userAgent)
              if !pr5.2 then pr5.1
              else
                let w6 :=
                  if pr5.1.hub.maxRingSecs > 0 then
                    { pr5.1 with hub := pr5.1.hub.setDeadline pr5.1.hub.maxRingSecs }
                  else pr5.1
                { w6 with callerIpInHubMap := c.RemoteAddr }

/-- The `cmd=="cancel"` block: with no callee attached the stray sender is
closed; with the callee peer-connected the canonical teardown
`peerConHasEnded("cancel")` runs on the callee endpoint; otherwise the
frame is ignored.  (`peerConHasEndedF` is tied later; see
`handleCancelWith`.) -/
def handleCancelWith (peerEnd : World → Role → Str → World)
    (w : World) (r : Role) (c : WsClient) (payload : Str) : World :=
  match w.hub.CalleeClient with
  | none => closeTo w r (str "callee already closed")
  | some calleeCl =>
    if calleeCl.isConnectedToPeer then peerEnd w Role.callee (str "cancel")
    else w

/-- The `cmd=="calleeHidden"` block: updates the hub flag, mirrors it to the
registry (`SetCalleeHiddenState`, modelled as `hiddenMirror`), and
sets/clears bit 0 of `Int2` in the user record. -/
def handleCalleeHidden (w : World) (c : WsClient) (payload : Str) : World :=
  let hidden := payload = str "true"
  let w1 := { w with hub := { w.hub with
                IsCalleeHidden := hidden,
                IsUnHiddenForCallerAddr := [] } }
  let w2 := { w1 with hiddenMirror := hidden }
  match w2.dbUser with
  | none => w2
  | some u =>
    let u2 := if hidden then { u with Int2 := u.Int2 ||| 1 }
              else { u with Int2 := clearBitsGo u.Int2 1 }
    { w2 with dbUser := some u2 }

/-- The `cmd=="dialsoundsmuted"` block: sets/clears bit 2 of `Int2` in the
user record. -/
def handleDialsoundsmuted (w : World) (c : WsClient) (payload : Str) : World :=
  let muted := payload = str "true"
  match w.dbUser with
  | none => w
  | some u =>
    let u2 := if muted then { u with Int2 := u.Int2 ||| 4 }
              else { u with Int2 := clearBitsGo u.Int2 4 }
    { w with dbUser := some u2 }

/-- The `cmd=="pickupWaitingCaller"` block: releases the channel the HTTP
front end blocks on (the channel send is recorded as an action). -/
def handlePickupWaitingCaller (w : World) (payload : Str) : World :=
  { w with actions := w.actions ++ [SrvAction.chanRelease payload] }

/-- The `cmd=="deleteMissedCall"` block: removes the first record whose
`AddrPort_CallTime` id equals the payload, persists, and pushes the
modified list to the callee when it is attached and online. -/
def handleDeleteMissedCall (w : World) (payload : Str) : World :=
  let missedCallsSlice :=
    match w.dbUser with
    | none => []
    | some u => if u.StoreMissedCalls then w.kvMissed else []
  if missedCallsSlice.length > 0 then
    match missedCallsSlice.findIdx? (fun mc =>
        mc.AddrPort ++ str "_" ++ intToStr mc.CallTime = payload) with
    | none => w
    | some idx =>
      let newList := missedCallsSlice.take idx ++ missedCallsSlice.drop (idx + 1)
      let w1 := { w with kvMissed := newList }
      match w1.hub.CalleeClient with
      | none => w1
      | some cl =>
        if cl.isOnline then
          { w1 with actions := w1.actions ++ [SrvAction.missedCallsPush newList] }
        else w1
  else w

/-- The `cmd=="pickup"` block: ignored when the sender is not peer-connected
or already sent a pickup; otherwise sets `lastCallStartTime`, forwards the
pickup to the caller slot (latching `pickupSent`) and disarms the deadline.
The sender's role is not checked. -/
def handlePickup (w : World) (r : Role) (c : WsClient) (message : Str) : World :=
  if !c.isConnectedToPeer then w
  else if c.pickupSent then w
  else
    let w1 := { w with hub := { w.hub with lastCallStartTime := w.now } }
    let w2 :=
      match w1.hub.CallerClient with
      | some _ =>
        let wa := (writeTo w1 Role.caller message).1
        wa.updateClient r (fun cl => { cl with pickupSent := true })
      | none => w1
    { w2 with hub := w2.hub.setDeadline 0 }

/-- The `cmd=="check"` block: echoes the payload back as `confirm|`. -/
def handleCheck (w : World) (r : Role) (payload : Str) : World :=
  (writeTo w r (str "confirm|" ++ payload)).1

/-- The `cmd=="log"` block (`log|<side> <constate> <local>/<remote>`): the
peer-connect report.  With no caller slot the stored caller IP is cleared;
with no callee slot nothing happens.  The unguarded `tok[2]` index in the
log statement panics when the payload has fewer than three fields.  An
accepted constate marks the reporter peer-connected (plus the callee when
the caller reports), records the p2p/relay modes, and on
`Connected`/`ConForce`: the callee's first such report marks both sides
media-connected and arms the relay talk deadline with a
`sessionDuration|` broadcast when not fully p2p; a caller `ConForce` sends
`callerConnect|` to the callee; a caller `Connected` force-closes per
config.  The block is split into `logCalleeMedia`, `logCallerConn`,
`logAccepted` and `handleLog` below, following the source's sections. -/
def logCalleeMedia (w4 : World) (r : Role) (c : WsClient) : World :=
  if !c.isMediaConnectedToPeer then
    let w5 := w4.updateClient r (fun cl => { cl with isMediaConnectedToPeer := true })
    let w6 := w5.updateClient Role.caller
      (fun cl => { cl with isMediaConnectedToPeer := true })
    if w6.hub.maxTalkSecsIfNoP2p > 0 &&
       (!w6.hub.LocalP2p || !w6.hub.RemoteP2p) then
      let w7 := { w6 with hub := w6.hub.setDeadline w6.hub.maxTalkSecsIfNoP2p }
      doBroadcast w7 (str "sessionDuration|" ++ intToStr w7.hub.maxTalkSecsIfNoP2p)
    else w6
  else w4

/-- The caller part of an accepted report (`log` handler): a `ConForce`
from a test caller delivers `callerConnect|` to the callee; a caller
`Connected` force-closes callee and/or caller per configuration. -/
def logCallerConn (cfg : Config) (w4 : World) (constate : Str) : World :=
  if constate = str "ConForce" then
    (writeTo w4 Role.callee (str "callerConnect|")).1
  else if constate = str "Connected" then
    let w5 :=
      if cfg.disconCalleeOnPeerConnected then
        closeTo w4 Role.callee (str "disconCalleeOnPeerConnected")
      else w4
    if cfg.disconCallerOnPeerConnected then
      match w5.hub.CallerClient with
      | some _ => closeTo w5 Role.caller (str "disconCallerOnPeerConnected")
      | none => w5
    else w5
  else w4

/-- The body of an accepted peer-connect report (`log` handler): sets the
reporter's peer flag (plus the callee's when the caller reports), records
the p2p/relay modes from the third field, and on `Connected`/`ConForce`
branches to the callee media part or to the caller part. -/
def logAccepted (cfg : Config) (w : World) (r : Role) (c : WsClient)
    (tok : List Str) (constate : Str) : World :=
  let w1 := w.updateClient r (fun cl => { cl with isConnectedToPeer := true })
  let w2 :=
    if !c.isCallee then
      w1.updateClient Role.callee (fun cl => { cl with isConnectedToPeer := true })
    else w1
  let w3 := { w2 with hub := { w2.hub with LocalP2p := false, RemoteP2p := false } }
  let w4 :=
    if tok.length ≥ 3 then
      let tok2 := splitOnChar '/' (trimStr (tok.getD 2 []))
      if tok2.length ≥ 2 then
        { w3 with hub := { w3.hub with
            LocalP2p := tok2.getD 0 [] = str "p2p",
            RemoteP2p := tok2.getD 1 [] = str "p2p" } }
      else w3
    else w3
  if constate = str "Connected" ∨ constate = str "ConForce" then
    if c.isCallee then logCalleeMedia w4 r c
    else logCallerConn cfg w4 constate
  else w4

/-- The guard part of the `log` handler: slot checks, payload split, the
unguarded `tok[2]` (panic below three fields), constate acceptance. -/
def handleLog (cfg : Config) (w : World) (r : Role) (c : WsClient) (payload : Str) : World :=
  match w.hub.CallerClient with
  | none => { w with callerIpInHubMap := [] }
  | some _ =>
    match w.hub.CalleeClient with
    | none => w
    | some _ =>
      let tok := splitOnChar ' ' payload
      let constate := if tok.length ≥ 2 then trimStr (tok.getD 1 []) else []
      if tok.length < 3 then { w with panicked := true }
      else
        if constate = str "Incoming" ∨ constate = str "Connected" ∨
           constate = str "ConForce" then
          logAccepted cfg w r c tok constate
        else w

/-- The body of the teardown branch of `peerConHasEnded` (everything the
source does while `isConnectedToPeer` was set, before the final
`CallerClient = nil`): clears the peer/media flags on the callee and — when
still attached — on the caller; appends one missed-call record when the
call duration is zero and the user record opts in; clears the stored
caller IP. -/
def peerConTeardownBody (w : World) (r : Role) (c : WsClient) : World :=
  let w1 := w.updateClient r (fun cl =>
    { cl with isConnectedToPeer := false, isMediaConnectedToPeer := false })
  let w2 := w1.updateClient Role.caller (fun cl =>
    { cl with isConnectedToPeer := false, isMediaConnectedToPeer := false })
  let callerRemoteAddr := match w2.hub.CallerClient with
    | some cc => cc.RemoteAddrNoPort
    | none => []
  let callerID := match w2.hub.CallerClient with
    | some cc => cc.callerID
    | none => []
  let callerName := match w2.hub.CallerClient with
    | some cc => cc.callerName
    | none => []
  let w3 :=
    if w2.hub.CallDurationSecs ≤ 0 then
      match w2.dbUser with
      | none => w2
      | some u =>
        if u.StoreMissedCalls then
          let info : CallerInfo :=
            ⟨callerRemoteAddr, callerName, w2.now, callerID, c.callerTextMsg⟩
          { w2 with kvMissed := addMissedCall w2.kvMissed info }
        else w2
    else w2
  { w3 with callerIpInHubMap := [] }

/-- `func (c *WsClient) peerConHasEnded(cause string)`: disarms the
deadline; when a pickup had started, runs the time accounting and zeroes
`lastCallStartTime`; then returns early for a non-callee endpoint; for the
callee it clears `calleeInitReceived` and, when a peer connect was active,
runs the teardown body and finally drops the caller slot. -/
def peerConHasEnded (w : World) (r : Role) (cause : Str) : World :=
  match w.client r with
  | none => w
  | some c =>
    let w1 := { w with hub := w.hub.setDeadline 0 }
    let w2 :=
      if w1.hub.lastCallStartTime > 0 then
        { w1 with hub := { (w1.hub.processTimeValues w1.now) with lastCallStartTime := 0 } }
      else w1
    if !c.isCallee then w2
    else
      let w3 := w2.updateClient r (fun cl => { cl with calleeInitReceived := false })
      if c.isConnectedToPeer then
        let w4 := peerConTeardownBody w3 r c
        { w4 with hub := { w4.hub with CallerClient := none } }
      else w3

/-- The `cmd=="cancel"` block with the teardown function tied. -/
def handleCancel (w : World) (r : Role) (c : WsClient) (payload : Str) : World :=
  handleCancelWith peerConHasEnded w r c payload

/-- Command dispatch of `receiveProcess` after the frame was split into
`cmd|payload`, in source order; unmatched commands with a non-empty
payload are forwarded verbatim to the opposite endpoint. -/
def dispatchCmd (cfg : Config) (w : World) (r : Role) (cmd payload message : Str) : World :=
  match w.client r with
  | none => w
  | some c =>
    if cmd = str "init" then handleInit cfg w r c
    else if cmd = str "dummy" then w
    else if cmd = str "msg" then handleMsg w c payload
    else if cmd = str "missedcall" then handleMissedcallCmd w c payload
    else if cmd = str "callerOffer" then handleCallerOffer w r c message
    else if cmd = str "rtcConnect" then w
    else if cmd = str "cancel" then handleCancel w r c payload
    else if cmd = str "calleeHidden" then handleCalleeHidden w c payload
    else if cmd = str "dialsoundsmuted" then handleDialsoundsmuted w c payload
    else if cmd = str "pickupWaitingCaller" then handlePickupWaitingCaller w payload
    else if cmd = str "deleteMissedCall" then handleDeleteMissedCall w payload
    else if cmd = str "pickup" then handlePickup w r c message
    else if cmd = str "heartbeat" then w
    else if cmd = str "check" then handleCheck w r payload
    else if cmd = str "log" then handleLog cfg w r c payload
    else if payload.length > 0 then
      if c.isCallee then
        match w.hub.CallerClient with
        | some _ => (writeTo w Role.caller message).1
        | none => w
      else
        match w.hub.CalleeClient with
        | some _ => (writeTo w Role.callee message).1
        | none => w
    else w

/-- `func (c *WsClient) receiveProcess(message, ...)`: a frame is processed
only when a `|` occurs within its first 32 bytes AND splitting the whole
frame on `|` yields exactly two parts (`len(tok)!=2` aborts); the command
is everything before the first `|`, the payload everything after it. -/
def receiveProcess (cfg : Config) (w : World) (r : Role) (message : Str) : World :=
  if '|' ∈ message.take 32 then
    match splitOnChar '|' message with
    | [cmd, payload] => dispatchCmd cfg w r cmd payload message
    | _ => w
  else w

/-- The per-connection data `serve` reads from the pending-attach record
and the request before binding a fresh endpoint to the hub. -/
structure AttachInfo where
  calleeID : Str
  clientVersion : Str
  callerID : Str
  callerName : Str
  remoteAddr : Str
  remoteAddrNoPort : Str
  userAgent : Str
  dbHidden : Bool
  dbServiceStartTime : Int
  dbConnectedToPeerSecs : Int
deriving Repr, DecidableEq

/-- The freshly upgraded client object of `serve` (Go zero values for all
flags, `isOnline` set true after the upgrade). -/
def freshWsClient (a : AttachInfo) : WsClient :=
  { isOnline := true, isConnectedToPeer := false, isMediaConnectedToPeer := false,
    pickupSent := false, calleeInitReceived := false, callerOfferForwarded := false,
    isCallee := false, calleeID := a.calleeID, clientVersion := a.clientVersion,
    callerID := a.callerID, callerName := a.callerName, callerTextMsg := [],
    RemoteAddr := a.remoteAddr, RemoteAddrNoPort := a.remoteAddrNoPort,
    userAgent := a.userAgent, clearOnCloseDone := false }

/-- Role disambiguation of `serve`: an empty callee slot makes the new
endpoint the callee (loading hidden state and quota fields); otherwise an
empty caller slot makes it the caller; otherwise the connection is
ignored. -/
def serveAttach (w : World) (a : AttachInfo) : World :=
  match w.hub.CalleeClient with
  | none =>
    let cl := { freshWsClient a with isCallee := true }
    let h1 := { w.hub with
      IsCalleeHidden := a.dbHidden,
      IsUnHiddenForCallerAddr := [],
      CalleeClient := some cl,
      CallerClient := none,
      ServiceStartTime := w.now,
      ConnectedToPeerSecs := 0 }
    let h2 :=
      if !(List.isPrefixOf (str "random") a.calleeID) then
        { h1 with
            ServiceStartTime := a.dbServiceStartTime,
            ConnectedToPeerSecs := a.dbConnectedToPeerSecs }
      else h1
    { w with hub := { h2 with CallDurationSecs := 0 } }
  | some _ =>
    match w.hub.CallerClient with
    | none =>
      { w with hub := { w.hub with
          CallDurationSecs := 0,
          CallerClient := some (freshWsClient a) } }
    | some _ => w

/-- Modelled from the spec: `doUnregister(endpoint, reason)` clears the
callee slot when the closing side is the callee; per the source comment on
`clearOnCloseDone` it first disarms the deadline and runs the time
accounting when that flag is still clear, then sets it. -/
def doUnregister (w : World) (r : Role) : World :=
  match w.client r with
  | none => w
  | some c =>
    if c.isCallee then
      let w1 :=
        if !c.clearOnCloseDone then
          let wa : World := { w with hub := w.hub.setDeadline 0 }
          let wb : World :=
            if wa.hub.lastCallStartTime > 0 then
              { wa with hub := { (wa.hub.processTimeValues wa.now) with lastCallStartTime := 0 } }
            else wa
          wb.updateClient r (fun cl => { cl with clearOnCloseDone := true })
        else w
      { w1 with hub := { w1.hub with CalleeClient := none } }
    else w

/-- The `OnClose` callback of `serve`: marks the endpoint offline, runs the
teardown when a peer-connected callee closes, then unregisters. -/
def onClose (w : World) (r : Role) : World :=
  match w.client r with
  | none => w
  | some c =>
    let w1 := w.updateClient r (fun cl => { cl with isOnline := false })
    let w2 :=
      if c.isCallee && c.isConnectedToPeer then peerConHasEnded w1 r (str "OnClose")
      else w1
    doUnregister w2 r

/-- The body of the 11 s no-peer-con watchdog started at caller attach:
when the callee is still not peer-connected and the caller did send a
`callerOffer`, a status message goes to both sides, the caller slot is
cleared and the stored caller IP is cleared. -/
def noPeerConWatchdog (w : World) : World :=
  match w.hub.CalleeClient with
  | none => w
  | some calleeCl =>
    if !calleeCl.isConnectedToPeer then
      match w.hub.CallerClient with
      | none => w
      | some callerCl =>
        if callerCl.callerOfferForwarded then
          let w1 := (writeTo w Role.caller (str "status|" ++ noPeerConMsg)).1
          let w2 := (writeTo w1 Role.callee (str "status|" ++ noPeerConMsg)).1
          let w3 := { w2 with hub := { w2.hub with CallerClient := none } }
          { w3 with callerIpInHubMap := [] }
        else w
    else w

/-- Modelled from the spec: expiry of the armed hub deadline invokes
`peerConHasEnded("deadline "+cause)` on the callee endpoint. -/
def deadlineFired (w : World) (cause : Str) : World :=
  if w.hub.deadline > 0 then
    peerConHasEnded w Role.callee (str "deadline " ++ cause)
  else w

/-- A hub as created at login: empty slots, zero counters, policy values
assigned at attach. -/
def initialHub (maxRing maxTalk regStart : Int) : Hub :=
  { CalleeClient := none, CallerClient := none, IsCalleeHidden := false,
    IsUnHiddenForCallerAddr := [], ServiceStartTime := 0, ConnectedToPeerSecs := 0,
    CallDurationSecs := 0, lastCallStartTime := 0, maxRingSecs := maxRing,
    maxTalkSecsIfNoP2p := maxTalk, LocalP2p := false, RemoteP2p := false,
    CalleeLogin := false, registrationStartTime := regStart, deadline := 0 }

/-- A freshly created hub world with arbitrary kv-store contents. -/
def initialWorld (kvW kvM : List CallerInfo) (u : Option DbUser)
    (t maxRing maxTalk regStart : Int) : World :=
  { hub := initialHub maxRing maxTalk regStart, kvWaiting := kvW, kvMissed := kvM,
    dbUser := u, callerIpInHubMap := [], hiddenMirror := false, now := t,
    actions := [], panicked := false }

/-- One event of the embedded system: an inbound frame, a connection
attach, a socket close, a deadline expiry, the no-peer-con watchdog, or
time passing. -/
inductive Step (cfg : Config) : World → World → Prop where
  | recv (w : World) (r : Role) (msg : Str) : Step cfg w (receiveProcess cfg w r msg)
  | attach (w : World) (a : AttachInfo) : Step cfg w (serveAttach w a)
  | sockClose (w : World) (r : Role) : Step cfg w (onClose w r)
  | timerFire (w : World) (cause : Str) : Step cfg w (deadlineFired w cause)
  | watchdog (w : World) : Step cfg w (noPeerConWatchdog w)
  | tick (w : World) (d : Int) : Step cfg w { w with now := w.now + d }

/-- States reachable from a freshly created hub by the embedded events. -/
inductive Reachable (cfg : Config) : World → Prop where
  | start (kvW kvM : List CallerInfo) (u : Option DbUser)
      (t maxRing maxTalk regStart : Int) :
      Reachable cfg (initialWorld kvW kvM u t maxRing maxTalk regStart)
  | step {w w' : World} : Reachable cfg w → Step cfg w w' → Reachable cfg w'

/-- The spec invariant restricted to the callee endpoint: media-connected
implies peer-connected. -/
def calleeConnOK (w : World) : Prop :=
  ∀ c, w.hub.CalleeClient = some c →
    c.isMediaConnectedToPeer = true → c.isConnectedToPeer = true

/-- The peer-connect and media-connect flags of an endpoint, paired. -/
def connFlags (cl : WsClient) : Bool × Bool :=
  (cl.isConnectedToPeer, cl.isMediaConnectedToPeer)

/-- A sample configuration (the production default: callers are
force-closed on peer connect, callees are not; no version nag). -/
def cfg0 : Config := ⟨str "2.0", [], false, true⟩

/-- A sample attached callee endpoint, before its `init`. -/
def calleeCl0 : WsClient :=
  { isOnline := true, isConnectedToPeer := false, isMediaConnectedToPeer := false,
    pickupSent := false, calleeInitReceived := false, callerOfferForwarded := false,
    isCallee := true, calleeID := str "user1", clientVersion := str "3.0",
    callerID := [], callerName := [], callerTextMsg := [],
    RemoteAddr := str "1.1.1.1:1111", RemoteAddrNoPort := str "1.1.1.1",
    userAgent := str "uaA", clearOnCloseDone := false }

/-- A sample attached caller endpoint. -/
def callerCl0 : WsClient :=
  { calleeCl0 with
    isCallee := false, callerID := str "cid", callerName := str "cn",
    RemoteAddr := str "2.2.2.2:2222", RemoteAddrNoPort := str "2.2.2.2",
    userAgent := str "uaB" }

/-- A sample hub world with empty kv lists and a stored user record. -/
def w0 : World := initialWorld [] [] (some ⟨0, true⟩) 1000 30 600 7

/-- Sample world: callee and caller attached, no peer connect yet. -/
def wBoth : World :=
  { w0 with hub := { w0.hub with
      CalleeClient := some calleeCl0,
      CallerClient := some callerCl0 } }

/-- Two waiting callers whose `CallTime` is more than 10 minutes old at
`now = 1000`. -/
def wcOld1 : CallerInfo := ⟨str "3.3.3.3:3333", str "n1", 0, str "id1", []⟩

/-- Second consecutive outdated waiting caller. -/
def wcOld2 : CallerInfo := ⟨str "4.4.4.4:4444", str "n2", 0, str "id2", []⟩

/-- Sample world for the pruning claims: callee attached (init pending),
two consecutive outdated entries in `waitingCallers`. -/
def w5 : World :=
  { w0 with kvWaiting := [wcOld1, wcOld2],
            hub := { w0.hub with CalleeClient := some calleeCl0 } }

/-- Sample world for the caller-side `peerConHasEnded` claim: both sides
attached, a pickup in progress (`lastCallStartTime = 100`), ring deadline
armed (30 s), current time 150. -/
def w7 : World :=
  { wBoth with now := 150,
               hub := { wBoth.hub with lastCallStartTime := 100, deadline := 30 } }

/-- Sample world for the pickup claim: the caller endpoint is
peer-connected (as after a caller-side `log` report), no pickup sent. -/
def wPick : World :=
  { w0 with hub := { w0.hub with
      CalleeClient := some calleeCl0,
      CallerClient := some { callerCl0 with isConnectedToPeer := true } } }

/-- Sample world for the missed-call claim: both endpoints peer-connected,
no pickup ever started, user record opted into missed calls. -/
def w6 : World :=
  { w0 with hub := { w0.hub with
      CalleeClient := some { calleeCl0 with isConnectedToPeer := true },
      CallerClient := some { callerCl0 with isConnectedToPeer := true } } }

/-- Attach data of the sample callee. -/
def aCallee : AttachInfo :=
  ⟨str "user1", str "3.0", [], [], str "1.1.1.1:1111", str "1.1.1.1", str "uaA",
   false, 500, 0⟩

/-- Attach data of the sample caller. -/
def aCaller : AttachInfo :=
  ⟨str "user1", str "3.0", str "cid", str "cn", str "2.2.2.2:2222", str "2.2.2.2",
   str "uaB", false, 500, 0⟩

/-- The state reached from a fresh hub by: callee attach, caller attach,
then the callee's report `log|callee Connected p2p/p2p`. -/
def wBad : World :=
  receiveProcess cfg0
    (serveAttach (serveAttach (initialWorld [] [] none 1000 30 600 7) aCallee) aCaller)
    Role.callee (str "log|callee Connected p2p/p2p")

/-- Helper: the pruning loop always returns a result (it never reaches the
out-of-range marker), because the `idx >= len` break check precedes every
slice access. -/
theorem pruneLoopGo_isSome (now : Int) :
    ∀ (fuel idx : Nat) (s : List CallerInfo) (cnt : Nat),
      (pruneLoopGo now fuel idx s cnt).isSome = true := by
  intro fuel
  induction fuel with
  | zero => intro idx s cnt; simp [pruneLoopGo]
  | succ n ih =>
    intro idx s cnt
    simp only [pruneLoopGo]
    by_cases h : idx ≥ s.length
    · simp [h]
    · have hlt : idx < s.length := by omega
      rw [if_neg (by omega)]
      rw [List.get?_eq_get hlt]
      by_cases hc : now - (s.get ⟨idx, hlt⟩).CallTime > 10 * 60
      · simp only [hc, if_true]; exact ih _ _ _
      · simp only [hc, if_false]; exact ih _ _ _

/-- C10: the waiting-caller pruning loop of the callee `init` handler is
total for every input list: although the slice shrinks while being
iterated over an index range fixed at loop entry, the explicit
`idx >= len` check breaks the loop before any out-of-range read. -/
theorem c10_prune_total (now : Int) (s : List CallerInfo) :
    (pruneWaitingCallers now s).isSome = true := by
  unfold pruneWaitingCallers
  exact pruneLoopGo_isSome now s.length 0 s 0

/-- C9: `Write(b)` returns the write-not-connected error exactly when
`isOnline` is false; when `isOnline` is true it emits `b` as a single TEXT
frame and returns no error. -/
theorem c9_write_contract (c : WsClient) (b : Str) :
    ((c.Write b).1 = some WsError.writeNotConnected ↔ c.isOnline = false) ∧
    (c.isOnline = true → c.Write b = (none, [WsFrame.text b])) := by
  unfold WsClient.Write
  cases h : c.isOnline <;> simp [h]

/-- Witness for C9 at a concrete online endpoint. -/
theorem c9_write_contract_witness :
    calleeCl0.isOnline = true ∧
    calleeCl0.Write (str "hi") = (none, [WsFrame.text (str "hi")]) :=
  ⟨by decide, (c9_write_contract calleeCl0 (str "hi")).2 (by decide)⟩

/-- C5: evaluation at the failing input: with two consecutive outdated
entries, the callee `init` pruning keeps and persists a waiting-caller
entry that is older than 10 minutes (`wcOld2` survives although
`now - CallTime = 1000 > 600`), contradicting the pruning law. -/
theorem c5_prune_keeps_outdated :
    pruneWaitingCallers 1000 [wcOld1, wcOld2] = some ([wcOld2], 1) ∧
    (receiveProcess cfg0 w5 Role.callee (str "init|")).kvWaiting = [wcOld2] ∧
    w5.now - wcOld2.CallTime > 10 * 60 := by decide

/-- C7: evaluation showing a caller-side `peerConHasEnded` invocation is
not a no-op on hub state: before the `isCallee` early return it already
disarms the deadline, runs the time accounting (setting
`CallDurationSecs`), and zeroes `lastCallStartTime`. -/
theorem c7_caller_teardown_mutates :
    w7.hub.lastCallStartTime = 100 ∧ w7.hub.deadline = 30 ∧
    (peerConHasEnded w7 Role.caller (str "cancel")).hub.lastCallStartTime = 0 ∧
    (peerConHasEnded w7 Role.caller (str "cancel")).hub.deadline = 0 ∧
    (peerConHasEnded w7 Role.caller (str "cancel")).hub.CallDurationSecs = 50 := by
  decide

/-- Helper: splitting never yields the empty list of parts. -/
theorem splitOnChar_ne_nil (sep : Char) (l : Str) : splitOnChar sep l ≠ [] := by
  induction l with
  | nil => simp [splitOnChar]
  | cons c rest ih =>
    simp only [splitOnChar]
    by_cases h : c = sep
    · simp [h]
    · simp only [h, if_false]
      cases hs : splitOnChar sep rest with
      | nil => simp
      | cons t ts => simp

/-- Helper: a separator-free string is returned whole. -/
theorem splitOnChar_no_sep (sep : Char) (l : Str) (h : sep ∉ l) :
    splitOnChar sep l = [l] := by
  induction l with
  | nil => rfl
  | cons c rest ih =>
    have hc : ¬ c = sep := by
      intro he; exact h (he ▸ List.mem_cons_self c rest)
    have hr : sep ∉ rest := fun hm => h (List.mem_cons_of_mem _ hm)
    simp only [splitOnChar, hc, if_false, ih hr]

/-- Helper: splitting at the first separator peels off the prefix. -/
theorem splitOnChar_append_sep (sep : Char) (a b : Str) (ha : sep ∉ a) :
    splitOnChar sep (a ++ sep :: b) = a :: splitOnChar sep b := by
  induction a with
  | nil => simp [splitOnChar]
  | cons c rest ih =>
    have hc : ¬ c = sep := by
      intro he; exact ha (he ▸ List.mem_cons_self c rest)
    have hr : sep ∉ rest := fun hm => ha (List.mem_cons_of_mem _ hm)
    rw [List.cons_append]
    simp only [splitOnChar, hc, if_false]
    rw [ih hr]

/-- Helper: the number of parts is the separator count plus one. -/
theorem splitOnChar_length (sep : Char) (l : Str) :
    (splitOnChar sep l).length = l.count sep + 1 := by
  induction l with
  | nil => simp [splitOnChar]
  | cons c rest ih =>
    by_cases h : c = sep
    · subst h
      simp [splitOnChar, ih, List.count_cons_self]
    · simp only [splitOnChar, h, if_false]
      cases hs : splitOnChar sep rest with
      | nil => exact absurd hs (splitOnChar_ne_nil sep rest)
      | cons t ts =>
        rw [hs] at ih
        simp only [List.length_cons] at ih ⊢
        rw [List.count_cons_of_ne (fun he => h he.symm)]
        omega

/-- Helper: a pipe sitting after fewer than 32 pipe-free bytes is inside
the inspected 32-byte prefix. -/
theorem pipe_mem_take (a b : Str) (halen : a.length < 32) :
    '|' ∈ (a ++ '|' :: b).take 32 := by
  rw [List.take_append_eq_append_take]
  apply List.mem_append_right
  obtain ⟨k, hk⟩ : ∃ k, 32 - a.length = k + 1 := ⟨31 - a.length, by omega⟩
  rw [hk]
  exact List.mem_cons_self _ _

/-- C1 (amended): `receiveProcess` rejects a frame with no `|` in its first
32 bytes; it also rejects any frame that does not contain exactly one `|`
overall (`len(tok)!=2`); a frame `a|b` whose single `|` sits inside the
first 32 bytes is dispatched with command `a` and payload `b` (everything
after the first `|`). -/
theorem c1_receive_split (cfg : Config) (w : World) (r : Role) (message : Str) :
    ('|' ∉ message.take 32 → receiveProcess cfg w r message = w) ∧
    (message.count '|' ≠ 1 → receiveProcess cfg w r message = w) ∧
    (∀ a b : Str, message = a ++ '|' :: b → '|' ∉ a → '|' ∉ b → a.length < 32 →
       receiveProcess cfg w r message = dispatchCmd cfg w r a b message) := by
  refine ⟨?_, ?_, ?_⟩
  · intro h
    unfold receiveProcess
    rw [if_neg h]
  · intro h
    unfold receiveProcess
    by_cases hg : '|' ∈ message.take 32
    · rw [if_pos hg]
      have hlen := splitOnChar_length '|' message
      rcases hs : splitOnChar '|' message with _ | ⟨t, _ | ⟨u, _ | ⟨v, vs⟩⟩⟩
      · rfl
      · rfl
      · exfalso
        rw [hs] at hlen
        simp only [List.length_cons, List.length_nil] at hlen
        omega
      · rfl
    · rw [if_neg hg]
  · intro a b hmsg ha hb halen
    subst hmsg
    unfold receiveProcess
    rw [if_pos (pipe_mem_take a b halen)]
    rw [splitOnChar_append_sep '|' a b ha, splitOnChar_no_sep '|' b hb]

/-- Witness for C1 (amended): the frame `check|abc` is dispatched as
command `check` with payload `abc`. -/
theorem c1_receive_split_witness :
    str "check|abc" = str "check" ++ '|' :: str "abc" ∧
    receiveProcess cfg0 wBoth Role.callee (str "check" ++ '|' :: str "abc") =
      dispatchCmd cfg0 wBoth Role.callee (str "check") (str "abc")
        (str "check" ++ '|' :: str "abc") :=
  ⟨by decide,
   (c1_receive_split cfg0 wBoth Role.callee (str "check" ++ '|' :: str "abc")).2.2
     (str "check") (str "abc") rfl (by decide) (by decide) (by decide)⟩

/-- Counterexample to C1 as stated: the frame `check|a|b` has its first `|`
within the first 32 bytes, yet it is dropped (the world is unchanged),
while the dispatch the claim mandates (command `check`, payload `a|b`)
would have produced an observable `confirm|a|b` write. -/
theorem c1_receive_counterexample :
    ('|' ∈ (str "check|a|b").take 32) ∧
    receiveProcess cfg0 wBoth Role.callee (str "check|a|b") = wBoth ∧
    dispatchCmd cfg0 wBoth Role.callee (str "check") (str "a|b") (str "check|a|b") =
      { wBoth with actions :=
          wBoth.actions ++ [SrvAction.write Role.callee (str "confirm|a|b")] } := by
  decide

/-- Helper: a write only appends an action; the hub is untouched. -/
@[simp] theorem writeTo_fst_hub (w : World) (r : Role) (m : Str) :
    ((writeTo w r m).1).hub = w.hub := by
  unfold writeTo
  split
  · rfl
  · split <;> rfl

/-- Helper: a close only appends an action; the hub is untouched. -/
@[simp] theorem closeTo_hub (w : World) (r : Role) (m : Str) :
    (closeTo w r m).hub = w.hub := by
  unfold closeTo
  split
  · rfl
  · split <;> rfl

/-- Helper: a broadcast only appends actions; the hub is untouched. -/
@[simp] theorem doBroadcast_hub (w : World) (m : Str) :
    (doBroadcast w m).hub = w.hub := by
  show ((writeTo ((writeTo w Role.callee m).1) Role.caller m).1).hub = w.hub
  rw [writeTo_fst_hub, writeTo_fst_hub]

/-- Helper: the callee slot under a callee update. -/
@[simp] theorem updateClient_callee_CalleeClient (w : World) (f : WsClient → WsClient) :
    (w.updateClient Role.callee f).hub.CalleeClient = (w.hub.CalleeClient).map f := rfl

/-- Helper: the caller slot under a callee update. -/
@[simp] theorem updateClient_callee_CallerClient (w : World) (f : WsClient → WsClient) :
    (w.updateClient Role.callee f).hub.CallerClient = w.hub.CallerClient := rfl

/-- Helper: the callee slot under a caller update. -/
@[simp] theorem updateClient_caller_CalleeClient (w : World) (f : WsClient → WsClient) :
    (w.updateClient Role.caller f).hub.CalleeClient = w.hub.CalleeClient := rfl

/-- Helper: the caller slot under a caller update. -/
@[simp] theorem updateClient_caller_CallerClient (w : World) (f : WsClient → WsClient) :
    (w.updateClient Role.caller f).hub.CallerClient = (w.hub.CallerClient).map f := rfl

/-- Helper: the client of the callee role. -/
@[simp] theorem client_callee (w : World) : w.client Role.callee = w.hub.CalleeClient := rfl

/-- Helper: the client of the caller role. -/
@[simp] theorem client_caller (w : World) : w.client Role.caller = w.hub.CallerClient := rfl

/-- Helper: transfer of the callee invariant along an unchanged slot. -/
theorem calleeConnOK_of_eq {w w' : World}
    (h : w'.hub.CalleeClient = w.hub.CalleeClient) (hw : calleeConnOK w) :
    calleeConnOK w' := by
  intro c hc hm
  exact hw c (h ▸ hc) hm

/-- Helper: transfer of the callee invariant along a flag-preserving
update of the slot. -/
theorem calleeConnOK_of_map {w w' : World} (f : WsClient → WsClient)
    (h : w'.hub.CalleeClient = (w.hub.CalleeClient).map f)
    (hf : ∀ cl, (f cl).isConnectedToPeer = cl.isConnectedToPeer ∧
                (f cl).isMediaConnectedToPeer = cl.isMediaConnectedToPeer)
    (hw : calleeConnOK w) : calleeConnOK w' := by
  intro c hc hm
  rw [h] at hc
  cases hcc : w.hub.CalleeClient with
  | none => rw [hcc] at hc; simp at hc
  | some d =>
    rw [hcc] at hc
    simp only [Option.map_some'] at hc
    obtain ⟨h1, h2⟩ := hf d
    cases hc
    rw [h2] at hm
    rw [h1]
    exact hw d hcc hm

/-- Helper: the callee invariant holds whenever the slot carries a
peer-connected endpoint. -/
theorem calleeConnOK_of_conTrue {w' : World}
    (h : ∀ c, w'.hub.CalleeClient = some c → c.isConnectedToPeer = true) :
    calleeConnOK w' :=
  fun c hc _ => h c hc

/-- Helper: the callee invariant holds whenever the slot carries an
endpoint that is not media-connected. -/
theorem calleeConnOK_of_mediaFalse {w' : World}
    (h : ∀ c, w'.hub.CalleeClient = some c → c.isMediaConnectedToPeer = false) :
    calleeConnOK w' := by
  intro c hc hm
  rw [h c hc] at hm
  cases hm

/-- Helper: the callee invariant holds for an empty callee slot. -/
theorem calleeConnOK_of_none {w' : World}
    (h : w'.hub.CalleeClient = none) : calleeConnOK w' := by
  intro c hc hm
  rw [h] at hc
  cases hc

/-- Helper: writes preserve the callee invariant. -/
theorem connOK_writeTo {w : World} (r : Role) (m : Str) (hw : calleeConnOK w) :
    calleeConnOK ((writeTo w r m).1) :=
  calleeConnOK_of_eq (by rw [writeTo_fst_hub]) hw

/-- Helper: closes preserve the callee invariant. -/
theorem connOK_closeTo {w : World} (r : Role) (m : Str) (hw : calleeConnOK w) :
    calleeConnOK (closeTo w r m) :=
  calleeConnOK_of_eq (by rw [closeTo_hub]) hw

/-- Helper: broadcasts preserve the callee invariant. -/
theorem connOK_doBroadcast {w : World} (m : Str) (hw : calleeConnOK w) :
    calleeConnOK (doBroadcast w m) :=
  calleeConnOK_of_eq (by rw [doBroadcast_hub]) hw

/-- Helper: a flag-preserving client update preserves the callee
invariant. -/
theorem connOK_updateClient {w : World} (r : Role) (f : WsClient → WsClient)
    (hf : ∀ cl, (f cl).isConnectedToPeer = cl.isConnectedToPeer ∧
                (f cl).isMediaConnectedToPeer = cl.isMediaConnectedToPeer)
    (hw : calleeConnOK w) : calleeConnOK (w.updateClient r f) := by
  cases r
  · exact calleeConnOK_of_map f (by simp) hf hw
  · exact calleeConnOK_of_eq (by simp) hw

/-- Helper: the `msg` handler preserves the callee invariant. -/
theorem connOK_handleMsg (w : World) (c : WsClient) (payload : Str)
    (hw : calleeConnOK w) : calleeConnOK (handleMsg w c payload) := by
  simp only [handleMsg]
  split
  · exact hw
  · exact connOK_updateClient Role.callee _ (fun cl => ⟨rfl, rfl⟩) hw

/-- Helper: the `missedcall` handler preserves the callee invariant. -/
theorem connOK_handleMissedcallCmd (w : World) (c : WsClient) (payload : Str)
    (hw : calleeConnOK w) : calleeConnOK (handleMissedcallCmd w c payload) :=
  calleeConnOK_of_eq rfl hw

/-- Helper: the `calleeHidden` handler preserves the callee invariant. -/
theorem connOK_handleCalleeHidden (w : World) (c : WsClient) (payload : Str)
    (hw : calleeConnOK w) : calleeConnOK (handleCalleeHidden w c payload) := by
  simp only [handleCalleeHidden]
  split
  · exact calleeConnOK_of_eq rfl hw
  · exact calleeConnOK_of_eq rfl hw

/-- Helper: the `dialsoundsmuted` handler preserves the callee invariant. -/
theorem connOK_handleDialsoundsmuted (w : World) (c : WsClient) (payload : Str)
    (hw : calleeConnOK w) : calleeConnOK (handleDialsoundsmuted w c payload) := by
  simp only [handleDialsoundsmuted]
  split
  · exact hw
  · exact calleeConnOK_of_eq rfl hw

/-- Helper: the `pickupWaitingCaller` handler preserves the callee
invariant. -/
theorem connOK_handlePickupWaitingCaller (w : World) (payload : Str)
    (hw : calleeConnOK w) : calleeConnOK (handlePickupWaitingCaller w payload) :=
  calleeConnOK_of_eq rfl hw

/-- Helper: the `deleteMissedCall` handler preserves the callee invariant. -/
theorem connOK_handleDeleteMissedCall (w : World) (payload : Str)
    (hw : calleeConnOK w) : calleeConnOK (handleDeleteMissedCall w payload) := by
  simp only [handleDeleteMissedCall]
  split
  · split
    · exact hw
    · split
      · exact calleeConnOK_of_eq rfl hw
      · split
        · exact calleeConnOK_of_eq rfl hw
        · exact calleeConnOK_of_eq rfl hw
  · exact hw

/-- Helper: the `check` handler preserves the callee invariant. -/
theorem connOK_handleCheck (w : World) (r : Role) (payload : Str)
    (hw : calleeConnOK w) : calleeConnOK (handleCheck w r payload) :=
  connOK_writeTo r _ hw

/-- Helper: the `pickup` handler preserves the callee invariant. -/
theorem connOK_handlePickup (w : World) (r : Role) (c : WsClient) (message : Str)
    (hw : calleeConnOK w) : calleeConnOK (handlePickup w r c message) := by
  simp only [handlePickup]
  split
  · exact hw
  · split
    · exact hw
    · split
      · exact calleeConnOK_of_eq rfl
          (connOK_updateClient r _ (fun cl => ⟨rfl, rfl⟩)
            (connOK_writeTo Role.caller message (calleeConnOK_of_eq rfl hw)))
      · exact calleeConnOK_of_eq rfl (calleeConnOK_of_eq rfl hw)

/-- Helper: the `init` handler preserves the callee invariant. -/
theorem connOK_handleInit (cfg : Config) (w : World) (r : Role) (c : WsClient)
    (hw : calleeConnOK w) : calleeConnOK (handleInit cfg w r c) := by
  simp only [handleInit]
  split
  · exact connOK_writeTo r _ hw
  · split
    · exact hw
    · repeat' split
      all_goals
        first
        | exact hw
        | exact connOK_writeTo r _
            (calleeConnOK_of_eq rfl (connOK_updateClient r _ (fun cl => ⟨rfl, rfl⟩)
              (calleeConnOK_of_eq rfl hw)))
        | exact connOK_writeTo r _ (connOK_writeTo r _
            (calleeConnOK_of_eq rfl (connOK_updateClient r _ (fun cl => ⟨rfl, rfl⟩)
              (calleeConnOK_of_eq rfl hw))))
        | exact calleeConnOK_of_eq rfl (connOK_writeTo r _
            (calleeConnOK_of_eq rfl (connOK_updateClient r _ (fun cl => ⟨rfl, rfl⟩)
              (calleeConnOK_of_eq rfl hw))))

/-- Helper: the `callerOffer` handler preserves the callee invariant. -/
theorem connOK_handleCallerOffer (w : World) (r : Role) (c : WsClient)
    (message : Str) (hw : calleeConnOK w) :
    calleeConnOK (handleCallerOffer w r c message) := by
  simp only [handleCallerOffer]
  repeat' split
  all_goals
    first
    | exact hw
    | exact connOK_writeTo _ _ hw
    | exact connOK_updateClient r _ (fun cl => ⟨rfl, rfl⟩) (connOK_writeTo _ _ hw)
    | exact connOK_writeTo _ _
        (connOK_updateClient r _ (fun cl => ⟨rfl, rfl⟩) (connOK_writeTo _ _ hw))
    | exact connOK_writeTo _ _ (connOK_writeTo _ _
        (connOK_updateClient r _ (fun cl => ⟨rfl, rfl⟩) (connOK_writeTo _ _ hw)))
    | exact connOK_writeTo _ _ (connOK_writeTo _ _ (connOK_writeTo _ _
        (connOK_updateClient r _ (fun cl => ⟨rfl, rfl⟩) (connOK_writeTo _ _ hw))))
    | exact calleeConnOK_of_eq rfl (connOK_writeTo _ _
        (connOK_updateClient r _ (fun cl => ⟨rfl, rfl⟩) (connOK_writeTo _ _ hw)))
    | exact calleeConnOK_of_eq rfl (connOK_writeTo _ _ (connOK_writeTo _ _
        (connOK_updateClient r _ (fun cl => ⟨rfl, rfl⟩) (connOK_writeTo _ _ hw))))
    | exact calleeConnOK_of_eq rfl (connOK_writeTo _ _ (connOK_writeTo _ _
        (connOK_writeTo _ _
          (connOK_updateClient r _ (fun cl => ⟨rfl, rfl⟩) (connOK_writeTo _ _ hw)))))

/-- Helper: the callee slot is unchanged by the teardown body apart from
the flag clearing on the invoking role. -/
theorem peerConTeardownBody_CalleeClient (w : World) (r : Role) (c : WsClient) :
    (peerConTeardownBody w r c).hub.CalleeClient =
      (w.updateClient r (fun cl =>
        { cl with isConnectedToPeer := false,
                  isMediaConnectedToPeer := false })).hub.CalleeClient := by
  simp only [peerConTeardownBody]
  repeat' split
  all_goals cases r <;> rfl

/-- Helper: the teardown body preserves the callee invariant (it clears the
media flag together with the peer flag). -/
theorem connOK_peerConTeardownBody (w : World) (r : Role) (c : WsClient)
    (hw : calleeConnOK w) : calleeConnOK (peerConTeardownBody w r c) := by
  cases r with
  | callee =>
    refine calleeConnOK_of_eq (peerConTeardownBody_CalleeClient w Role.callee c) ?_
    apply calleeConnOK_of_mediaFalse
    intro d hd
    simp only [updateClient_callee_CalleeClient] at hd
    cases hcc : w.hub.CalleeClient with
    | none => rw [hcc] at hd; cases hd
    | some e =>
      rw [hcc] at hd
      simp only [Option.map_some'] at hd
      cases hd
      rfl
  | caller =>
    refine calleeConnOK_of_eq (peerConTeardownBody_CalleeClient w Role.caller c) ?_
    exact calleeConnOK_of_eq (by simp) hw

/-- Helper: `peerConHasEnded` preserves the callee invariant. -/
theorem connOK_peerConHasEnded (w : World) (r : Role) (cause : Str)
    (hw : calleeConnOK w) : calleeConnOK (peerConHasEnded w r cause) := by
  simp only [peerConHasEnded]
  repeat' split
  all_goals
    first
    | exact hw
    | exact calleeConnOK_of_eq rfl hw
    | exact connOK_updateClient r _ (fun cl => ⟨rfl, rfl⟩) (calleeConnOK_of_eq rfl hw)
    | exact calleeConnOK_of_eq rfl (connOK_peerConTeardownBody _ r _
        (connOK_updateClient r _ (fun cl => ⟨rfl, rfl⟩) (calleeConnOK_of_eq rfl hw)))

/-- Helper: the `cancel` handler preserves the callee invariant. -/
theorem connOK_handleCancel (w : World) (r : Role) (c : WsClient) (payload : Str)
    (hw : calleeConnOK w) : calleeConnOK (handleCancel w r c payload) := by
  simp only [handleCancel, handleCancelWith]
  split
  · exact connOK_closeTo r _ hw
  · split
    · exact connOK_peerConHasEnded w Role.callee _ hw
    · exact hw

/-- Helper: the callee slot is untouched by the media part when the
caller endpoint is the invoking role. -/
theorem logCalleeMedia_caller_CalleeClient (w4 : World) (c : WsClient) :
    (logCalleeMedia w4 Role.caller c).hub.CalleeClient = w4.hub.CalleeClient := by
  simp only [logCalleeMedia]
  repeat' split
  all_goals simp [Hub.setDeadline]

/-- Helper: the callee slot is untouched by the caller part of an accepted
report. -/
theorem logCallerConn_CalleeClient (cfg : Config) (w4 : World) (constate : Str) :
    (logCallerConn cfg w4 constate).hub.CalleeClient = w4.hub.CalleeClient := by
  simp only [logCallerConn]
  repeat' split
  all_goals simp

/-- Helper: the media part keeps the callee peer-connected when it was. -/
theorem connOK_logCalleeMedia (w4 : World) (r : Role) (c : WsClient)
    (h : ∀ d, w4.hub.CalleeClient = some d → d.isConnectedToPeer = true) :
    calleeConnOK (logCalleeMedia w4 r c) := by
  apply calleeConnOK_of_conTrue
  intro d hd
  cases r with
  | callee =>
    simp only [logCalleeMedia] at hd
    split at hd
    · split at hd <;>
        (simp only [doBroadcast_hub, Hub.setDeadline, updateClient_callee_CalleeClient,
           updateClient_caller_CalleeClient] at hd
         cases hcc : w4.hub.CalleeClient with
         | none => rw [hcc] at hd; simp at hd
         | some e =>
           rw [hcc] at hd
           simp only [Option.map_some'] at hd
           cases hd
           exact h e hcc)
    · exact h d hd
  | caller =>
    simp only [logCalleeMedia] at hd
    split at hd
    · split at hd <;>
        (simp only [doBroadcast_hub, Hub.setDeadline,
           updateClient_caller_CalleeClient] at hd
         exact h d hd)
    · exact h d hd

/-- Helper: on the callee role with media not yet set, the media part maps
the media flag onto the callee slot. -/
theorem logCalleeMedia_callee_media (w4 : World) (c : WsClient)
    (hM : (!c.isMediaConnectedToPeer) = true) :
    (logCalleeMedia w4 Role.callee c).hub.CalleeClient =
      (w4.hub.CalleeClient).map
        (fun cl => { cl with isMediaConnectedToPeer := true }) := by
  simp only [logCalleeMedia]
  rw [if_pos hM]
  split
  · simp [Hub.setDeadline]
  · simp

/-- Helper: on the callee role with media already set, the media part is a
no-op. -/
theorem logCalleeMedia_callee_nomedia (w4 : World) (c : WsClient)
    (hM : ¬ (!c.isMediaConnectedToPeer) = true) :
    (logCalleeMedia w4 Role.callee c).hub.CalleeClient = w4.hub.CalleeClient := by
  simp only [logCalleeMedia]
  rw [if_neg hM]

/-- Helper: the accepted-report body preserves the callee invariant. -/
theorem connOK_logAccepted (cfg : Config) (w : World) (r : Role) (c : WsClient)
    (tok : List Str) (constate : Str) (hw : calleeConnOK w) :
    calleeConnOK (logAccepted cfg w r c tok constate) := by
  intro d hc hm
  cases r with
  | callee =>
    by_cases hM : (!c.isMediaConnectedToPeer) = true
    · simp only [logAccepted] at hc
      repeat' split at hc
      all_goals try rw [logCalleeMedia_callee_media _ c hM] at hc
      all_goals try rw [logCallerConn_CalleeClient] at hc
      all_goals try simp only [updateClient_callee_CalleeClient,
        updateClient_caller_CalleeClient] at hc
      all_goals
        cases hcc : w.hub.CalleeClient with
        | none => rw [hcc] at hc; simp at hc
        | some e =>
          rw [hcc] at hc
          simp only [Option.map_some'] at hc
          cases hc
          rfl
    · simp only [logAccepted] at hc
      repeat' split at hc
      all_goals try rw [logCalleeMedia_callee_nomedia _ c hM] at hc
      all_goals try rw [logCallerConn_CalleeClient] at hc
      all_goals try simp only [updateClient_callee_CalleeClient,
        updateClient_caller_CalleeClient] at hc
      all_goals
        cases hcc : w.hub.CalleeClient with
        | none => rw [hcc] at hc; simp at hc
        | some e =>
          rw [hcc] at hc
          simp only [Option.map_some'] at hc
          cases hc
          rfl
  | caller =>
    simp only [logAccepted] at hc
    repeat' split at hc
    all_goals try rw [logCalleeMedia_caller_CalleeClient] at hc
    all_goals try rw [logCallerConn_CalleeClient] at hc
    all_goals try simp only [updateClient_caller_CalleeClient,
      updateClient_callee_CalleeClient] at hc
    all_goals
      first
      | exact hw d hc hm
      | (cases hcc : w.hub.CalleeClient with
         | none => rw [hcc] at hc; simp at hc
         | some e =>
           rw [hcc] at hc
           simp only [Option.map_some'] at hc
           cases hc
           rfl)

/-- Helper: the `log` handler preserves the callee invariant: whenever it
sets the callee's media flag it has set the callee's peer flag in the same
invocation, and a report can only ever set (never clear) the peer flag. -/
theorem connOK_handleLog (cfg : Config) (w : World) (r : Role) (c : WsClient)
    (payload : Str) (hw : calleeConnOK w) : calleeConnOK (handleLog cfg w r c payload) := by
  simp only [handleLog]
  repeat' split
  all_goals
    first
    | exact hw
    | exact calleeConnOK_of_eq rfl hw
    | exact connOK_logAccepted cfg w r c _ _ hw

/-- Helper: an attach preserves the callee invariant (a fresh endpoint has
both flags clear). -/
theorem connOK_serveAttach (w : World) (a : AttachInfo) (hw : calleeConnOK w) :
    calleeConnOK (serveAttach w a) := by
  simp only [serveAttach]
  split
  · apply calleeConnOK_of_mediaFalse
    intro d hd
    split at hd <;> (cases hd; rfl)
  · split
    · exact calleeConnOK_of_eq rfl hw
    · exact hw

/-- Helper: `doUnregister` preserves the callee invariant. -/
theorem connOK_doUnregister (w : World) (r : Role) (hw : calleeConnOK w) :
    calleeConnOK (doUnregister w r) := by
  simp only [doUnregister]
  split
  · exact hw
  · split
    · exact calleeConnOK_of_none rfl
    · exact hw

/-- Helper: the `OnClose` path preserves the callee invariant. -/
theorem connOK_onClose (w : World) (r : Role) (hw : calleeConnOK w) :
    calleeConnOK (onClose w r) := by
  simp only [onClose]
  split
  · exact hw
  · apply connOK_doUnregister
    split
    · exact connOK_peerConHasEnded _ r _
        (connOK_updateClient r _ (fun cl => ⟨rfl, rfl⟩) hw)
    · exact connOK_updateClient r _ (fun cl => ⟨rfl, rfl⟩) hw

/-- Helper: the no-peer-con watchdog preserves the callee invariant. -/
theorem connOK_noPeerConWatchdog (w : World) (hw : calleeConnOK w) :
    calleeConnOK (noPeerConWatchdog w) := by
  simp only [noPeerConWatchdog]
  repeat' split
  all_goals
    first
    | exact hw
    | exact calleeConnOK_of_eq (by simp) hw

/-- Helper: a deadline expiry preserves the callee invariant. -/
theorem connOK_deadlineFired (w : World) (cause : Str) (hw : calleeConnOK w) :
    calleeConnOK (deadlineFired w cause) := by
  simp only [deadlineFired]
  split
  · exact connOK_peerConHasEnded _ _ _ hw
  · exact hw

/-- Helper: the command dispatch preserves the callee invariant. -/
theorem connOK_dispatchCmd (cfg : Config) (w : World) (r : Role)
    (cmd payload message : Str) (hw : calleeConnOK w) :
    calleeConnOK (dispatchCmd cfg w r cmd payload message) := by
  unfold dispatchCmd
  cases hcl : w.client r with
  | none => exact hw
  | some cl =>
    split
    · exact hw
    · by_cases h1 : cmd = str "init"
      case pos => rw [if_pos h1]; exact connOK_handleInit cfg w r _ hw
      rw [if_neg h1]
      by_cases h2 : cmd = str "dummy"
      case pos => rw [if_pos h2]; exact hw
      rw [if_neg h2]
      by_cases h3 : cmd = str "msg"
      case pos => rw [if_pos h3]; exact connOK_handleMsg w _ payload hw
      rw [if_neg h3]
      by_cases h4 : cmd = str "missedcall"
      case pos => rw [if_pos h4]; exact connOK_handleMissedcallCmd w _ payload hw
      rw [if_neg h4]
      by_cases h5 : cmd = str "callerOffer"
      case pos => rw [if_pos h5]; exact connOK_handleCallerOffer w r _ message hw
      rw [if_neg h5]
      by_cases h6 : cmd = str "rtcConnect"
      case pos => rw [if_pos h6]; exact hw
      rw [if_neg h6]
      by_cases h7 : cmd = str "cancel"
      case pos => rw [if_pos h7]; exact connOK_handleCancel w r _ payload hw
      rw [if_neg h7]
      by_cases h8 : cmd = str "calleeHidden"
      case pos => rw [if_pos h8]; exact connOK_handleCalleeHidden w _ payload hw
      rw [if_neg h8]
      by_cases h9 : cmd = str "dialsoundsmuted"
      case pos => rw [if_pos h9]; exact connOK_handleDialsoundsmuted w _ payload hw
      rw [if_neg h9]
      by_cases h10 : cmd = str "pickupWaitingCaller"
      case pos => rw [if_pos h10]; exact connOK_handlePickupWaitingCaller w payload hw
      rw [if_neg h10]
      by_cases h11 : cmd = str "deleteMissedCall"
      case pos => rw [if_pos h11]; exact connOK_handleDeleteMissedCall w payload hw
      rw [if_neg h11]
      by_cases h12 : cmd = str "pickup"
      case pos => rw [if_pos h12]; exact connOK_handlePickup w r _ message hw
      rw [if_neg h12]
      by_cases h13 : cmd = str "heartbeat"
      case pos => rw [if_pos h13]; exact hw
      rw [if_neg h13]
      by_cases h14 : cmd = str "check"
      case pos => rw [if_pos h14]; exact connOK_handleCheck w r payload hw
      rw [if_neg h14]
      by_cases h15 : cmd = str "log"
      case pos => rw [if_pos h15]; exact connOK_handleLog cfg w r _ payload hw
      rw [if_neg h15]
      repeat' split
      all_goals
        first
        | exact hw
        | exact connOK_writeTo _ _ hw

/-- Helper: the receive loop preserves the callee invariant. -/
theorem connOK_receiveProcess (cfg : Config) (w : World) (r : Role)
    (message : Str) (hw : calleeConnOK w) :
    calleeConnOK (receiveProcess cfg w r message) := by
  simp only [receiveProcess]
  repeat' split
  all_goals
    first
    | exact hw
    | exact connOK_dispatchCmd cfg w r _ _ message hw

/-- C3: media-connected implies peer-connected holds for the CALLEE
endpoint in every reachable state; the claim's universal form over every
endpoint is wrong for the caller (see the counterexample): the callee's
accepted `Connected` report sets the caller's `isMediaConnectedToPeer`
without setting its `isConnectedToPeer`. -/
theorem c3_media_invariant_callee (cfg : Config) (w : World)
    (h : Reachable cfg w) : calleeConnOK w := by
  induction h with
  | start kvW kvM u t maxRing maxTalk regStart => exact calleeConnOK_of_none rfl
  | step hr hs ih =>
    cases hs with
    | recv r msg => exact connOK_receiveProcess cfg _ r msg ih
    | attach a => exact connOK_serveAttach _ a ih
    | sockClose r => exact connOK_onClose _ r ih
    | timerFire cause => exact connOK_deadlineFired _ cause ih
    | watchdog => exact connOK_noPeerConWatchdog _ ih
    | tick d => exact calleeConnOK_of_eq rfl ih

/-- Witness: the invariant theorem applied at a concrete reachable state
(the sample fresh hub world). -/
theorem c3_media_invariant_callee_witness :
    calleeConnOK (initialWorld [] [] (some ⟨0, true⟩) 1000 30 600 7) :=
  c3_media_invariant_callee cfg0 _
    (Reachable.start [] [] (some ⟨0, true⟩) 1000 30 600 7)

/-- Counterexample to the claim's universal form: `wBad` is reachable
(callee attach, caller attach, then the callee's report
`log|callee Connected p2p/p2p`), yet its caller endpoint is
media-connected without being peer-connected. -/
theorem c3_media_counterexample :
    Reachable cfg0 wBad ∧
      (wBad.hub.CallerClient).map connFlags = some (false, true) := by
  refine ⟨?_, by decide⟩
  exact Reachable.step
    (Reachable.step
      (Reachable.step (Reachable.start [] [] none 1000 30 600 7)
        (Step.attach _ aCallee))
      (Step.attach _ aCaller))
    (Step.recv _ Role.callee (str "log|callee Connected p2p/p2p"))

/-- Helper: peer-flag projection chains over an optional slot. -/
theorem map_proj_map {β : Type} (o : Option WsClient) (g : WsClient → β)
    (f : WsClient → WsClient) (h : ∀ cl, g (f cl) = g cl) :
    (o.map f).map g = o.map g := by
  cases o <;> simp [h]

/-- Helper: the caller part of an accepted report never changes the hub
(it only writes or closes sockets). -/
theorem logCallerConn_hub (cfg : Config) (w4 : World) (constate : Str) :
    (logCallerConn cfg w4 constate).hub = w4.hub := by
  simp only [logCallerConn]
  repeat' split
  all_goals simp [writeTo_fst_hub, closeTo_hub]

/-- Helper: the callee media part never changes either slot's
`isConnectedToPeer` flag. -/
theorem logCalleeMedia_con (w4 : World) (r : Role) (c : WsClient) :
    ((logCalleeMedia w4 r c).hub.CalleeClient).map WsClient.isConnectedToPeer =
      (w4.hub.CalleeClient).map WsClient.isConnectedToPeer ∧
    ((logCalleeMedia w4 r c).hub.CallerClient).map WsClient.isConnectedToPeer =
      (w4.hub.CallerClient).map WsClient.isConnectedToPeer := by
  cases r <;>
    (constructor <;>
      (simp only [logCalleeMedia]
       repeat' split
       all_goals try simp only [doBroadcast_hub, Hub.setDeadline,
         updateClient_callee_CalleeClient, updateClient_caller_CalleeClient,
         updateClient_callee_CallerClient, updateClient_caller_CallerClient]
       all_goals
         first
         | rfl
         | (refine map_proj_map _ _ _ ?_; exact fun cl => rfl)
         | (refine (map_proj_map _ _ _ ?_).trans (map_proj_map _ _ _ ?_) <;>
             exact fun cl => rfl)))

/-- C2 (corrected): a CALLER-side accepted peer-connect report sets
`isConnectedToPeer` on both endpoints; a CALLEE-side accepted report sets
it only on the callee — the caller's flag is left as it was (the source's
own comment admits the callee side "does not set caller
isConnectedToPeer"); the teardown body of `peerConHasEnded` on the callee
endpoint clears both endpoints' peer and media flags. -/
theorem c2_peerconnect_flags (cfg : Config) (w : World) (c : WsClient)
    (tok : List Str) (constate : Str) :
    (c.isCallee = false →
      ((logAccepted cfg w Role.caller c tok constate).hub.CalleeClient).map
          WsClient.isConnectedToPeer = (w.hub.CalleeClient).map (fun _ => true) ∧
      ((logAccepted cfg w Role.caller c tok constate).hub.CallerClient).map
          WsClient.isConnectedToPeer = (w.hub.CallerClient).map (fun _ => true)) ∧
    (c.isCallee = true →
      ((logAccepted cfg w Role.callee c tok constate).hub.CalleeClient).map
          WsClient.isConnectedToPeer = (w.hub.CalleeClient).map (fun _ => true) ∧
      ((logAccepted cfg w Role.callee c tok constate).hub.CallerClient).map
          WsClient.isConnectedToPeer =
        (w.hub.CallerClient).map WsClient.isConnectedToPeer) ∧
    ((peerConTeardownBody w Role.callee c).hub.CalleeClient).map connFlags =
      (w.hub.CalleeClient).map (fun _ => (false, false)) ∧
    ((peerConTeardownBody w Role.callee c).hub.CallerClient).map connFlags =
      (w.hub.CallerClient).map (fun _ => (false, false)) := by
  refine ⟨?_, ?_, ?_, ?_⟩
  · intro hC
    constructor <;>
      (simp only [logAccepted]
       repeat' split
       all_goals try rw [(logCalleeMedia_con _ _ _).1]
       all_goals try rw [(logCalleeMedia_con _ _ _).2]
       all_goals try rw [logCallerConn_hub]
       all_goals try simp only [
         updateClient_callee_CalleeClient, updateClient_caller_CalleeClient,
         updateClient_callee_CallerClient, updateClient_caller_CallerClient]
       all_goals
         first
         | rfl
         | (refine map_proj_map _ _ _ ?_; exact fun cl => rfl)
         | (refine (map_proj_map _ _ _ ?_).trans (map_proj_map _ _ _ ?_) <;>
             exact fun cl => rfl)
         | (exfalso; simp_all; done)
         | (cases w.hub.CalleeClient <;> simp <;> done)
         | (cases w.hub.CallerClient <;> simp <;> done)
         | (cases w.hub.CalleeClient <;> simp)
         | (cases w.hub.CallerClient <;> simp))
  · intro hC
    constructor <;>
      (simp only [logAccepted]
       repeat' split
       all_goals try rw [(logCalleeMedia_con _ _ _).1]
       all_goals try rw [(logCalleeMedia_con _ _ _).2]
       all_goals try rw [logCallerConn_hub]
       all_goals try simp only [
         updateClient_callee_CalleeClient, updateClient_caller_CalleeClient,
         updateClient_callee_CallerClient, updateClient_caller_CallerClient]
       all_goals
         first
         | rfl
         | (refine map_proj_map _ _ _ ?_; exact fun cl => rfl)
         | (refine (map_proj_map _ _ _ ?_).trans (map_proj_map _ _ _ ?_) <;>
             exact fun cl => rfl)
         | (exfalso; simp_all; done)
         | (cases w.hub.CalleeClient <;> simp <;> done)
         | (cases w.hub.CallerClient <;> simp <;> done)
         | (cases w.hub.CalleeClient <;> simp)
         | (cases w.hub.CallerClient <;> simp))
  · simp only [peerConTeardownBody]
    repeat' split
    all_goals
      try simp only [writeTo_fst_hub, closeTo_hub, doBroadcast_hub,
        updateClient_callee_CalleeClient, updateClient_caller_CalleeClient,
        updateClient_callee_CallerClient, updateClient_caller_CallerClient]
    all_goals
      first
      | (cases w.hub.CalleeClient <;> simp [connFlags])
      | (cases w.hub.CallerClient <;> simp [connFlags])
  · simp only [peerConTeardownBody]
    repeat' split
    all_goals
      try simp only [writeTo_fst_hub, closeTo_hub, doBroadcast_hub,
        updateClient_callee_CalleeClient, updateClient_caller_CalleeClient,
        updateClient_callee_CallerClient, updateClient_caller_CallerClient]
    all_goals
      first
      | (cases w.hub.CallerClient <;> simp [connFlags])
      | (cases w.hub.CalleeClient <;> simp [connFlags])

/-- Witness: the C2 contract at a concrete input: a caller-side
`Connected` report on the sample two-endpoint hub leaves no slot without
its peer flag. -/
theorem c2_peerconnect_flags_witness :
    callerCl0.isCallee = false ∧
    ((logAccepted cfg0 wBoth Role.caller callerCl0
        [str "caller", str "Connected"] (str "Connected")).hub.CallerClient).map
        WsClient.isConnectedToPeer = (wBoth.hub.CallerClient).map (fun _ => true) :=
  ⟨by decide,
   ((c2_peerconnect_flags cfg0 wBoth callerCl0
      [str "caller", str "Connected"] (str "Connected")).1 (by decide)).2⟩

/-- Counterexample to the claim as stated: the callee-side accepted report
`log|callee Incoming p2p/p2p` on the sample two-endpoint hub sets the
callee's peer flag but leaves the caller's peer flag false. -/
theorem c2_peerconnect_counterexample :
    ((receiveProcess cfg0 wBoth Role.callee
        (str "log|callee Incoming p2p/p2p")).hub.CalleeClient).map
        WsClient.isConnectedToPeer = some true ∧
    ((receiveProcess cfg0 wBoth Role.callee
        (str "log|callee Incoming p2p/p2p")).hub.CallerClient).map
        WsClient.isConnectedToPeer = some false := by
  constructor <;> decide

/-- C4 (corrected): `pickup` acceptance never checks the sender's role:
it is rejected exactly when the sender is not peer-connected or has
already sent a pickup; when accepted (for ANY role) it sets the hub's
`lastCallStartTime` to the current time, disarms the deadline, and — when
an online caller is attached — forwards the frame to the caller and
latches the sender's `pickupSent`. -/
theorem c4_pickup_accept (w : World) (r : Role) (c : WsClient) (m : Str) :
    (c.isConnectedToPeer = false → handlePickup w r c m = w) ∧
    (c.pickupSent = true → handlePickup w r c m = w) ∧
    (c.isConnectedToPeer = true → c.pickupSent = false →
      (handlePickup w r c m).hub.lastCallStartTime = w.now ∧
      (handlePickup w r c m).hub.deadline = 0 ∧
      (∀ cc, w.hub.CallerClient = some cc → cc.isOnline = true →
        (handlePickup w r c m).actions = w.actions ++ [SrvAction.write Role.caller m] ∧
        ((handlePickup w r c m).client r).map WsClient.pickupSent =
          (w.client r).map (fun _ => true))) := by
  refine ⟨?_, ?_, ?_⟩
  · intro h
    simp [handlePickup, h]
  · intro h
    simp only [handlePickup, h]
    split <;> rfl
  · intro h1 h2
    refine ⟨?_, ?_, ?_⟩
    · simp only [handlePickup, h1, h2]
      cases hcc : w.hub.CallerClient <;>
        cases r <;>
          simp [Hub.setDeadline, World.updateClient, writeTo_fst_hub, hcc]
    · simp only [handlePickup, h1, h2]
      cases hcc : w.hub.CallerClient <;>
        cases r <;>
          simp [Hub.setDeadline, World.updateClient, writeTo_fst_hub, hcc]
    · intro cc hcc hon
      constructor
      · simp only [handlePickup, h1, h2]
        cases r <;>
          simp [Hub.setDeadline, World.updateClient, World.client, writeTo, hcc, hon]
      · simp only [handlePickup, h1, h2]
        cases r <;>
          (simp [Hub.setDeadline, World.updateClient, World.client, writeTo, hcc, hon]
           try (cases w.hub.CalleeClient <;> simp)
           try (cases w.hub.CallerClient <;> simp))

/-- Witness: an accepted pickup from the CALLER endpoint of the sample
hub (peer-connected, no pickup yet) starts the call clock and disarms the
deadline. -/
theorem c4_pickup_accept_witness :
    (handlePickup wPick Role.caller { callerCl0 with isConnectedToPeer := true }
        (str "pickup|!")).hub.lastCallStartTime = wPick.now ∧
    (handlePickup wPick Role.caller { callerCl0 with isConnectedToPeer := true }
        (str "pickup|!")).hub.deadline = 0 :=
  ⟨((c4_pickup_accept wPick Role.caller _ _).2.2 (by decide) (by decide)).1,
   ((c4_pickup_accept wPick Role.caller _ _).2.2 (by decide) (by decide)).2.1⟩

/-- Counterexample to the role check in the claim: in the sample world a
`pickup|!` from the CALLER endpoint (role caller, not callee) is accepted —
it sets `lastCallStartTime` and forwards the frame — although the claim
says a pickup from a non-callee endpoint is not accepted. -/
theorem c4_pickup_counterexample :
    wPick.hub.lastCallStartTime = 0 ∧
    (receiveProcess cfg0 wPick Role.caller (str "pickup|!")).hub.lastCallStartTime
      = 1000 ∧
    (receiveProcess cfg0 wPick Role.caller (str "pickup|!")).actions
      = [SrvAction.write Role.caller (str "pickup|!")] := by
  refine ⟨by decide, by decide, by decide⟩

/-- C6: a teardown on the callee endpoint with no recorded call duration
and a user record opting into missed calls appends EXACTLY ONE record to
the missed-call list (the list grows by the one appended entry, never
zero or two). -/
theorem c6_missedcall_once (w : World) (c : WsClient) (u : DbUser) (cause : Str)
    (hc : w.client Role.callee = some c) (hcallee : c.isCallee = true)
    (hcon : c.isConnectedToPeer = true) (hlast : w.hub.lastCallStartTime ≤ 0)
    (hdur : w.hub.CallDurationSecs ≤ 0) (hu : w.dbUser = some u)
    (hstore : u.StoreMissedCalls = true) :
    ∃ info, (peerConHasEnded w Role.callee cause).kvMissed = w.kvMissed ++ [info] := by
  simp only [peerConHasEnded, hc]
  repeat' split
  all_goals try (exfalso; simp_all; done)
  all_goals try (exfalso; simp only [Hub.setDeadline] at *; omega)
  all_goals simp only [peerConTeardownBody, World.updateClient, Hub.setDeadline]
  all_goals repeat' split
  all_goals try (exfalso; simp_all; done)
  all_goals try (exfalso; simp only [Hub.setDeadline] at *; omega)
  all_goals exact ⟨_, rfl⟩

/-- Witness: a cancel-teardown on the sample connected hub stores exactly
one missed call. -/
theorem c6_missedcall_once_witness :
    (peerConHasEnded w6 Role.callee (str "cancel")).kvMissed.length =
      w6.kvMissed.length + 1 := by
  obtain ⟨info, h⟩ := c6_missedcall_once w6 { calleeCl0 with isConnectedToPeer := true }
    ⟨0, true⟩ (str "cancel") (by decide) (by decide) (by decide) (by decide)
    (by decide) (by decide) (by decide)
  rw [h]
  simp

/-- C8 (corrected): a `cancel` frame closes the SENDER's socket only when
NO callee endpoint is attached; with a callee attached and peer-connected
it runs the teardown on the callee endpoint; with a callee attached but
NOT peer-connected it does nothing at all (the sender is NOT closed). -/
theorem c8_cancel_behavior (w : World) (r : Role) (c : WsClient) (payload : Str) :
    (w.hub.CalleeClient = none →
      handleCancel w r c payload = closeTo w r (str "callee already closed")) ∧
    (∀ calleeCl, w.hub.CalleeClient = some calleeCl →
      (calleeCl.isConnectedToPeer = true →
        handleCancel w r c payload = peerConHasEnded w Role.callee (str "cancel")) ∧
      (calleeCl.isConnectedToPeer = false →
        handleCancel w r c payload = w)) := by
  constructor
  · intro h
    simp [handleCancel, handleCancelWith, h]
  · intro calleeCl h
    constructor
    · intro hcon
      simp [handleCancel, handleCancelWith, h, hcon]
    · intro hcon
      simp [handleCancel, handleCancelWith, h, hcon]

/-- Witness: on the sample two-endpoint hub (callee attached, not
peer-connected) a caller-sent cancel leaves the world untouched. -/
theorem c8_cancel_behavior_witness :
    handleCancel wBoth Role.caller callerCl0 (str "user1") = wBoth :=
  ((c8_cancel_behavior wBoth Role.caller callerCl0 (str "user1")).2
    calleeCl0 (by decide)).2 (by decide)

/-- Counterexample to the claim's otherwise-branch: with a callee attached
but not peer-connected, the received cancel is silently ignored — the
world is returned unchanged and in particular no close action for the
sending endpoint is recorded, although the claim requires its socket to
be closed. -/
theorem c8_cancel_counterexample :
    receiveProcess cfg0 wBoth Role.caller (str "cancel|c") = wBoth ∧
    (receiveProcess cfg0 wBoth Role.caller (str "cancel|c")).actions = [] := by
  constructor <;> decide
